import Mathlib

/-!
Shallow embedding of the "listen together" music-room plugin (src/main.py)
and verification of its specification claims.

Modelling conventions:
* Python `int` is `Int`; Python `%` on a positive modulus agrees with `Int.emod`.
* `random.randint(0, len - 1)` is modelled by an oracle argument `rand : Nat`
  reduced mod the playlist length, so the chosen index ranges over `[0, len)`.
* The network call `await self.music_api.get_song_url(song)` is modelled by an
  oracle argument `oracle : String` (the URL the provider would return); each
  command additionally reports whether it issued that network call.
* Python dicts (`self.rooms`, `self.user_room_map`, `self.search_results`,
  `room.members`) are modelled as `String → Option β` maps, except the room's
  member dict which is an insertion-ordered association list (only its contents
  matter to the claims).
* `re.search(r'(\d+)', message)` followed by `int(...)` is modelled by an
  `Option Nat` argument: `none` when the message holds no digit run.
* The dataclass field `create_time` plays no role in any claim and is omitted.
-/

/-- The `Song` dataclass: immutable metadata plus a lazily filled `url`. -/
structure Song where
  id : String
  name : String
  artist : String
  album : String
  duration : Nat
  url : String
  cover : String
  source : String
deriving DecidableEq

/-- The `MusicRoom` dataclass (state of one room). -/
structure MusicRoom where
  room_id : String
  owner_id : String
  owner_name : String
  group_id : String
  playlist : List Song
  current_index : Int
  members : List (String × String)
  is_playing : Bool
  play_mode : String
deriving DecidableEq

/-- `MusicRoom.add_song`: `self.playlist.append(song)`. -/
def MusicRoom.add_song (room : MusicRoom) (song : Song) : MusicRoom :=
  { room with playlist := room.playlist ++ [song] }

/-- `MusicRoom.remove_song`: pop at `index` when `0 <= index < len(playlist)`,
returning the removed song, else `None` with the room unchanged. -/
def MusicRoom.remove_song (room : MusicRoom) (index : Int) : MusicRoom × Option Song :=
  if 0 ≤ index ∧ index < (room.playlist.length : Int) then
    ({ room with playlist := room.playlist.eraseIdx index.toNat },
     room.playlist[index.toNat]?)
  else
    (room, none)

/-- `MusicRoom.get_current_song`: the song at the cursor when the cursor is a
valid index, else `None`. -/
def MusicRoom.get_current_song (room : MusicRoom) : Option Song :=
  if 0 ≤ room.current_index ∧ room.current_index < (room.playlist.length : Int) then
    room.playlist[room.current_index.toNat]?
  else
    none

/-- `MusicRoom.next_song`: random mode picks an index in `[0, len)` (oracle
`rand` reduced mod the length); sequence mode takes `(cursor + 1) % len`. -/
def MusicRoom.next_song (room : MusicRoom) (rand : Nat) : MusicRoom × Option Song :=
  if room.playlist.isEmpty then (room, none)
  else
    let room' :=
      if room.play_mode = "random" then
        { room with current_index := ((rand % room.playlist.length : Nat) : Int) }
      else
        { room with current_index :=
            (room.current_index + 1) % (room.playlist.length : Int) }
    (room', room'.get_current_song)

/-- `MusicRoom.prev_song`: `(cursor - 1) % len`, in every play mode. -/
def MusicRoom.prev_song (room : MusicRoom) : MusicRoom × Option Song :=
  if room.playlist.isEmpty then (room, none)
  else
    let room' := { room with current_index :=
        (room.current_index - 1) % (room.playlist.length : Int) }
    (room', room'.get_current_song)

/-- `MusicRoom.add_member`: dict assignment `self.members[user_id] = user_name`
(update in place if present, else append). -/
def MusicRoom.add_member (room : MusicRoom) (user_id user_name : String) : MusicRoom :=
  { room with members :=
      if room.members.any (fun p => p.1 = user_id) then
        room.members.map (fun p => if p.1 = user_id then (user_id, user_name) else p)
      else
        room.members ++ [(user_id, user_name)] }

/-- Outcome of the `/移除` (remove) command handler. -/
inductive RemoveOutcome
  | removed (song : Song)
  | indexOutOfRange
deriving DecidableEq

/-- The `/移除` handler body after the index has been parsed: calls
`room.remove_song(index)`; on success clamps the cursor with
`if room.current_index >= len(room.playlist): room.current_index = max(0, len(room.playlist) - 1)`. -/
def remove_song_cmd (room : MusicRoom) (index : Int) : MusicRoom × RemoveOutcome :=
  match room.remove_song index with
  | (room', some song) =>
      let room'' :=
        if (room'.playlist.length : Int) ≤ room'.current_index then
          { room' with current_index := max 0 ((room'.playlist.length : Int) - 1) }
        else room'
      (room'', .removed song)
  | (room', none) => (room', .indexOutOfRange)

/-- Helper for `if not song.url: song.url = await self.music_api.get_song_url(song)`
acting on the song aliased at playlist position `i`. Returns the room, the URL the
user is shown, and whether a network call was issued. -/
def resolve_at (room : MusicRoom) (i : Nat) (song : Song) (oracle : String) :
    MusicRoom × String × Bool :=
  if song.url = "" then
    ({ room with playlist := room.playlist.set i { song with url := oracle } }, oracle, true)
  else
    (room, song.url, false)

/-- Outcome of the `/播放` (play) command handler (room-lookup step aside). -/
inductive PlayOutcome
  | playlistEmpty
  | alreadyPlaying
  | started (url : String) (networkCalled : Bool)
  | noCurrentSong
deriving DecidableEq

/-- The `/播放` handler body: reject an empty playlist; report "already playing"
as a no-op; otherwise set the playing flag, set the cursor to 0 when negative,
and lazily resolve the current song's URL. -/
def play_cmd (room : MusicRoom) (oracle : String) : MusicRoom × PlayOutcome :=
  if room.playlist.isEmpty then (room, .playlistEmpty)
  else if room.is_playing then (room, .alreadyPlaying)
  else
    let room1 := { room with is_playing := true,
                             current_index :=
                               if room.current_index < 0 then 0 else room.current_index }
    match room1.get_current_song with
    | some song =>
        let r := resolve_at room1 room1.current_index.toNat song oracle
        (r.1, .started r.2.1 r.2.2)
    | none => (room1, .noCurrentSong)

/-- Outcome of the `/暂停` (pause) command handler. -/
inductive PauseOutcome
  | alreadyPaused
  | paused
deriving DecidableEq

/-- The `/暂停` handler body: when not playing, report "nothing playing" and leave
the room unchanged; else clear the playing flag. -/
def pause_cmd (room : MusicRoom) : MusicRoom × PauseOutcome :=
  if room.is_playing then ({ room with is_playing := false }, .paused)
  else (room, .alreadyPaused)

/-- Outcome of the `/下一首` / `/上一首` navigation handlers. -/
inductive NavOutcome
  | playlistEmpty
  | playing (url : String) (networkCalled : Bool)
  | silent
deriving DecidableEq

/-- The `/下一首` handler body: reject an empty playlist, advance the cursor via
`room.next_song()`, lazily resolve the new current song's URL. -/
def next_cmd (room : MusicRoom) (rand : Nat) (oracle : String) : MusicRoom × NavOutcome :=
  if room.playlist.isEmpty then (room, .playlistEmpty)
  else
    match room.next_song rand with
    | (room', some song) =>
        let r := resolve_at room' room'.current_index.toNat song oracle
        (r.1, .playing r.2.1 r.2.2)
    | (room', none) => (room', .silent)

/-- The `/上一首` handler body: reject an empty playlist, move the cursor via
`room.prev_song()`, lazily resolve the new current song's URL. -/
def prev_cmd (room : MusicRoom) (oracle : String) : MusicRoom × NavOutcome :=
  if room.playlist.isEmpty then (room, .playlistEmpty)
  else
    match room.prev_song with
    | (room', some song) =>
        let r := resolve_at room' room'.current_index.toNat song oracle
        (r.1, .playing r.2.1 r.2.2)
    | (room', none) => (room', .silent)

/-- Outcome of the `/切歌` (skip-to) command handler. -/
inductive SkipOutcome
  | badNumber
  | indexOutOfRange
  | switched (url : String) (networkCalled : Bool)
  | silent
deriving DecidableEq

/-- The `/切歌` handler body: parse a 1-based number (`none` when the message has
no digits), convert to 0-based, bounds-check, set the cursor and lazily resolve
the URL of the selected song. -/
def skip_cmd (room : MusicRoom) (numInput : Option Nat) (oracle : String) :
    MusicRoom × SkipOutcome :=
  match numInput with
  | none => (room, .badNumber)
  | some n =>
      let index : Int := (n : Int) - 1
      if index < 0 ∨ (room.playlist.length : Int) ≤ index then (room, .indexOutOfRange)
      else
        let room1 := { room with current_index := index }
        match room1.get_current_song with
        | some song =>
            let r := resolve_at room1 index.toNat song oracle
            (r.1, .switched r.2.1 r.2.2)
        | none => (room1, .silent)

/-- The `/清空列表` handler's mutation (its owner gate is enforced by the caller):
empty the playlist, reset the cursor to -1, stop playback. -/
def clear_cmd (room : MusicRoom) : MusicRoom :=
  { room with playlist := [], current_index := -1, is_playing := false }

/-- The room-mutating operations quantified over by the cursor invariant claim. -/
inductive RoomOp
  | addSongOp (s : Song)
  | removeSongOp (i : Int)
  | advanceOp (rand : Nat) (oracle : String)
  | retreatOp (oracle : String)
  | skipToOp (numInput : Option Nat) (oracle : String)
  | clearOp
  | playOp (oracle : String)

/-- Apply one operation to a room, discarding the user-visible outcome. -/
def applyOp (room : MusicRoom) : RoomOp → MusicRoom
  | .addSongOp s => room.add_song s
  | .removeSongOp i => (remove_song_cmd room i).1
  | .advanceOp r o => (next_cmd room r o).1
  | .retreatOp o => (prev_cmd room o).1
  | .skipToOp n o => (skip_cmd room n o).1
  | .clearOp => clear_cmd room
  | .playOp o => (play_cmd room o).1

/-- The spec's cursor invariant: the cursor is `-1` or a valid playlist index. -/
def cursorInv (room : MusicRoom) : Prop :=
  room.current_index = -1 ∨
    (0 ≤ room.current_index ∧ room.current_index < (room.playlist.length : Int))

instance (room : MusicRoom) : Decidable (cursorInv room) := by
  unfold cursorInv; infer_instance

/-- A Python dict with string keys, as a partial map. -/
def StrMap (β : Type) : Type := String → Option β

/-- Dict assignment `m[k] = v`. -/
def StrMap.insert {β : Type} (m : StrMap β) (k : String) (v : β) : StrMap β :=
  fun k' => if k' = k then some v else m k'

/-- Dict deletion `del m[k]`. -/
def StrMap.erase {β : Type} (m : StrMap β) (k : String) : StrMap β :=
  fun k' => if k' = k then none else m k'

/-- The empty dict. -/
def StrMap.empty {β : Type} : StrMap β := fun _ => none

/-- The plugin's process-wide mutable state: `self.rooms`, `self.user_room_map`
and `self.search_results`. -/
structure Registry where
  rooms : StrMap MusicRoom
  user_room_map : StrMap String
  search_results : StrMap (List Song)

/-- `self._get_group_key(group_id)`. -/
def group_key (group_id : String) : String := "room_" ++ group_id

/-- The `f"{user_id}_{group_id}"` key for the reverse index and search stash. -/
def user_key (user_id group_id : String) : String := user_id ++ "_" ++ group_id

/-- Outcome of the `/创建房间` (create room) command handler. -/
inductive CreateOutcome
  | alreadyExists
  | created
deriving DecidableEq

/-- The `/创建房间` handler: refuse when a room already exists for the group
scope; otherwise build a fresh room with the caller as owner and sole member and
index it under the group key and the caller's reverse-index key. -/
def create_room (reg : Registry) (user_id user_name group_id : String) :
    Registry × CreateOutcome :=
  let room_key := group_key group_id
  match reg.rooms room_key with
  | some _ => (reg, .alreadyExists)
  | none =>
      let room : MusicRoom :=
        { room_id := room_key
          owner_id := user_id
          owner_name := user_name
          group_id := group_id
          playlist := []
          current_index := -1
          members := [(user_id, user_name)]
          is_playing := false
          play_mode := "sequence" }
      ({ reg with
          rooms := reg.rooms.insert room_key room
          user_room_map := reg.user_room_map.insert (user_key user_id group_id) room_key },
       .created)

/-- Outcome of the `/选歌` (select song) command handler. -/
inductive SelectOutcome
  | notInRoom
  | noPendingSearch
  | badNumber
  | indexOutOfRange
  | added (song : Song)
deriving DecidableEq

/-- The `/选歌` handler: require a room, then a pending search stash, then a
numeric 1-based index in range; on success resolve the song's URL (oracle),
append it to the room's playlist and delete the stash. All failure paths leave
the registry untouched. -/
def select_song (reg : Registry) (user_id group_id : String) (numInput : Option Nat)
    (oracle : String) : Registry × SelectOutcome :=
  let room_key := group_key group_id
  match reg.rooms room_key with
  | none => (reg, .notInRoom)
  | some room =>
      let search_key := user_key user_id group_id
      match reg.search_results search_key with
      | none => (reg, .noPendingSearch)
      | some songs =>
          match numInput with
          | none => (reg, .badNumber)
          | some n =>
              let index : Int := (n : Int) - 1
              if index < 0 ∨ (songs.length : Int) ≤ index then (reg, .indexOutOfRange)
              else
                match songs[index.toNat]? with
                | none => (reg, .indexOutOfRange)
                | some song =>
                    let song' := { song with url := oracle }
                    ({ reg with
                        rooms := reg.rooms.insert room_key (room.add_song song')
                        search_results := reg.search_results.erase search_key },
                     .added song')


/-! ### Concrete fixtures used by witnesses and counterexamples -/

/-- A song with an unresolved URL. -/
def songA : Song :=
  { id := "001", name := "Alpha", artist := "Ann", album := "A1",
    duration := 180, url := "", cover := "", source := "qq" }

/-- A song whose URL is already resolved. -/
def songB : Song :=
  { id := "002", name := "Beta", artist := "Ben", album := "B1",
    duration := 200, url := "https://m/b.mp3", cover := "", source := "netease" }

/-- Another song whose URL is already resolved. -/
def songC : Song :=
  { id := "003", name := "Gamma", artist := "Cai", album := "C1",
    duration := 220, url := "https://m/c.mp3", cover := "", source := "qq" }

/-- A two-song sequence-mode room with the cursor on the first song. -/
def roomSeq2 : MusicRoom :=
  { room_id := "room_g", owner_id := "u1", owner_name := "Ursula", group_id := "g",
    playlist := [songA, songB], current_index := 0,
    members := [("u1", "Ursula")], is_playing := false, play_mode := "sequence" }

/-- A three-song room with no current song (cursor `-1`). -/
def roomNoCur3 : MusicRoom :=
  { room_id := "room_g", owner_id := "u1", owner_name := "Ursula", group_id := "g",
    playlist := [songA, songB, songC], current_index := -1,
    members := [("u1", "Ursula")], is_playing := false, play_mode := "sequence" }

/-! ### Helper lemmas -/

lemma emod_sub_self_eq {a N : Int} (h0 : 0 ≤ a) (h1 : a < N) : (a - N) % N = a := by
  have h : a - N = a + N * (-1) := by ring
  rw [h, Int.add_mul_emod_self_left, Int.emod_eq_of_lt h0 h1]

lemma prev_song_cursor (room : MusicRoom) (hne : room.playlist ≠ []) :
    (room.prev_song).1.current_index =
      (room.current_index - 1) % (room.playlist.length : Int) := by
  simp [MusicRoom.prev_song, List.isEmpty_iff, hne]

lemma prev_song_playlist (room : MusicRoom) :
    (room.prev_song).1.playlist = room.playlist := by
  simp only [MusicRoom.prev_song]
  split <;> rfl

lemma prev_song_mode (room : MusicRoom) :
    (room.prev_song).1.play_mode = room.play_mode := by
  simp only [MusicRoom.prev_song]
  split <;> rfl

lemma next_song_cursor_seq (room : MusicRoom) (hmode : ¬ room.play_mode = "random")
    (hne : room.playlist ≠ []) (rand : Nat) :
    (room.next_song rand).1.current_index =
      (room.current_index + 1) % (room.playlist.length : Int) := by
  simp [MusicRoom.next_song, List.isEmpty_iff, hne, hmode]

lemma next_song_playlist (room : MusicRoom) (rand : Nat) :
    (room.next_song rand).1.playlist = room.playlist := by
  simp only [MusicRoom.next_song]
  split
  · rfl
  · split <;> rfl

lemma next_song_mode (room : MusicRoom) (rand : Nat) :
    (room.next_song rand).1.play_mode = room.play_mode := by
  simp only [MusicRoom.next_song]
  split
  · rfl
  · split <;> rfl

/-! ### C9 -/

/-- C9: with no current song (cursor `-1`), `prev_song` sets the cursor to the
second-to-last index `len - 2` when the playlist has at least two songs, and to
`0` when it has exactly one. -/
theorem prev_song_no_current_edge (room : MusicRoom) (hc : room.current_index = -1) :
    (2 ≤ room.playlist.length →
      ((room.prev_song).1).current_index = (room.playlist.length : Int) - 2) ∧
    (room.playlist.length = 1 → ((room.prev_song).1).current_index = 0) := by
  constructor
  · intro h2
    have hne : room.playlist ≠ [] := by
      intro h; rw [h] at h2; simp at h2
    have hlen : (2 : Int) ≤ (room.playlist.length : Int) := by exact_mod_cast h2
    rw [prev_song_cursor room hne, hc]
    have heq : ((-1 : Int) - 1) =
        ((room.playlist.length : Int) - 2) - (room.playlist.length : Int) := by ring
    rw [heq, emod_sub_self_eq (by omega) (by omega)]
  · intro h1
    have hne : room.playlist ≠ [] := by
      intro h; rw [h] at h1; simp at h1
    rw [prev_song_cursor room hne, h1]
    simp

/-- Witness for C9 on a concrete three-song room. -/
theorem prev_song_no_current_edge_witness :
    roomNoCur3.current_index = -1 ∧ 2 ≤ roomNoCur3.playlist.length ∧
    ((roomNoCur3.prev_song).1).current_index = (roomNoCur3.playlist.length : Int) - 2 :=
  ⟨by decide, by decide,
    (prev_song_no_current_edge roomNoCur3 (by decide)).1 (by decide)⟩

/-! ### C8 -/

/-- C8: `prev_song` always sets the cursor to `(cursor - 1) % len` regardless of
play mode, and in sequence mode `prev_song` followed by `next_song` from a valid
starting cursor returns the cursor to its original value. -/
theorem retreat_then_advance_roundtrip (room : MusicRoom) (hne : room.playlist ≠ []) :
    ((room.prev_song).1).current_index =
        (room.current_index - 1) % (room.playlist.length : Int) ∧
    (room.play_mode = "sequence" → 0 ≤ room.current_index →
      room.current_index < (room.playlist.length : Int) → ∀ rand,
      ((((room.prev_song).1).next_song rand).1).current_index = room.current_index) := by
  constructor
  · exact prev_song_cursor room hne
  · intro hmode h0 h1 rand
    have hne' : ((room.prev_song).1).playlist ≠ [] := by
      rw [prev_song_playlist]; exact hne
    have hmode' : ¬ ((room.prev_song).1).play_mode = "random" := by
      rw [prev_song_mode, hmode]; simp
    rw [next_song_cursor_seq _ hmode' hne' rand, prev_song_cursor room hne,
      prev_song_playlist, Int.emod_add_emod]
    have heq : room.current_index - 1 + 1 = room.current_index := by ring
    rw [heq, Int.emod_eq_of_lt h0 h1]

/-- Witness for C8 on a concrete two-song sequence-mode room. -/
theorem retreat_then_advance_roundtrip_witness :
    roomSeq2.playlist ≠ [] ∧ roomSeq2.play_mode = "sequence" ∧
    ((((roomSeq2.prev_song).1).next_song 0).1).current_index = roomSeq2.current_index :=
  ⟨by decide, by decide,
    (retreat_then_advance_roundtrip roomSeq2 (by decide)).2 (by decide) (by decide)
      (by decide) 0⟩

/-! ### C2 -/

/-- One `next_song` step, keeping only the room (the random oracle is
irrelevant in sequence mode, so it is fixed to `0`). -/
def advanceStep (room : MusicRoom) : MusicRoom := (room.next_song 0).1

lemma advanceStep_iterate (room : MusicRoom) (hmode : room.play_mode = "sequence")
    (hne : room.playlist ≠ []) (h0 : 0 ≤ room.current_index)
    (h1 : room.current_index < (room.playlist.length : Int)) (k : Nat) :
    (advanceStep^[k] room).playlist = room.playlist ∧
    (advanceStep^[k] room).play_mode = room.play_mode ∧
    (advanceStep^[k] room).current_index =
      (room.current_index + k) % (room.playlist.length : Int) := by
  induction k with
  | zero =>
      refine ⟨rfl, rfl, ?_⟩
      simpa using (Int.emod_eq_of_lt h0 h1).symm
  | succ k ih =>
      obtain ⟨hp, hm, hc⟩ := ih
      rw [Function.iterate_succ_apply']
      have hne' : (advanceStep^[k] room).playlist ≠ [] := by rw [hp]; exact hne
      have hmode' : ¬ (advanceStep^[k] room).play_mode = "random" := by
        rw [hm, hmode]; simp
      refine ⟨?_, ?_, ?_⟩
      · rw [advanceStep, next_song_playlist, hp]
      · rw [advanceStep, next_song_mode, hm]
      · rw [advanceStep, next_song_cursor_seq _ hmode' hne' 0, hc, hp,
          Int.emod_add_emod]
        have heq : room.current_index + (k : Int) + 1 =
            room.current_index + ((k : Nat) + 1 : Nat) := by push_cast; ring
        rw [heq]

/-- C2 (amended): in sequence mode each `next_song` call moves the cursor by one
modulo the playlist length, and `N` calls (not `N + 1`) return the cursor to its
original valid index. -/
theorem advance_sequential_wraparound (room : MusicRoom)
    (hmode : room.play_mode = "sequence") (hne : room.playlist ≠ [])
    (h0 : 0 ≤ room.current_index)
    (h1 : room.current_index < (room.playlist.length : Int)) :
    (∀ rand, ((room.next_song rand).1).current_index =
        (room.current_index + 1) % (room.playlist.length : Int)) ∧
    (advanceStep^[room.playlist.length] room).current_index = room.current_index := by
  constructor
  · intro rand
    exact next_song_cursor_seq room (by rw [hmode]; simp) hne rand
  · rw [(advanceStep_iterate room hmode hne h0 h1 room.playlist.length).2.2]
    have heq : room.current_index + (room.playlist.length : Int) =
        room.current_index + (room.playlist.length : Int) * 1 := by ring
    rw [heq, Int.add_mul_emod_self_left, Int.emod_eq_of_lt h0 h1]

/-- Counterexample for C2 as stated: on a two-song sequence-mode playlist with
the cursor at index 0, calling `next_song` N + 1 = 3 times leaves the cursor at
index 1, not at the original index 0. -/
theorem advance_wraparound_counterexample :
    roomSeq2.play_mode = "sequence" ∧ roomSeq2.current_index = 0 ∧
    roomSeq2.playlist.length = 2 ∧
    (advanceStep^[roomSeq2.playlist.length + 1] roomSeq2).current_index ≠
      roomSeq2.current_index := by
  refine ⟨rfl, rfl, rfl, ?_⟩
  decide

/-- Witness for the amended C2 on a concrete two-song sequence-mode room. -/
theorem advance_sequential_wraparound_witness :
    (roomSeq2.play_mode = "sequence" ∧ roomSeq2.playlist ≠ [] ∧
      0 ≤ roomSeq2.current_index ∧
      roomSeq2.current_index < (roomSeq2.playlist.length : Int)) ∧
    (advanceStep^[roomSeq2.playlist.length] roomSeq2).current_index =
      roomSeq2.current_index :=
  ⟨⟨by decide, by decide, by decide, by decide⟩,
    (advance_sequential_wraparound roomSeq2 (by decide) (by decide) (by decide)
      (by decide)).2⟩

/-! ### C4 -/

lemma remove_song_in_range (room : MusicRoom) (index : Int)
    (h0 : 0 ≤ index) (h1 : index < (room.playlist.length : Int))
    (hlt : index.toNat < room.playlist.length) :
    room.remove_song index =
      ({ room with playlist := room.playlist.eraseIdx index.toNat },
        some (room.playlist[index.toNat])) := by
  unfold MusicRoom.remove_song
  rw [if_pos ⟨h0, h1⟩, List.getElem?_eq_getElem hlt]

lemma remove_song_out_of_range (room : MusicRoom) (index : Int)
    (h : ¬ (0 ≤ index ∧ index < (room.playlist.length : Int))) :
    room.remove_song index = (room, none) := by
  unfold MusicRoom.remove_song
  rw [if_neg h]

lemma remove_song_cmd_in_range (room : MusicRoom) (index : Int)
    (h0 : 0 ≤ index) (h1 : index < (room.playlist.length : Int))
    (hlt : index.toNat < room.playlist.length) :
    remove_song_cmd room index =
      (if ((room.playlist.eraseIdx index.toNat).length : Int) ≤ room.current_index then
        { room with playlist := room.playlist.eraseIdx index.toNat,
                    current_index :=
                      max 0 (((room.playlist.eraseIdx index.toNat).length : Int) - 1) }
       else { room with playlist := room.playlist.eraseIdx index.toNat },
       RemoveOutcome.removed (room.playlist[index.toNat])) := by
  unfold remove_song_cmd
  rw [remove_song_in_range room index h0 h1 hlt]

/-- C4: on a valid 0-based index `remove_song_cmd` removes and returns the song
at that index and keeps the playing flag; the cursor is clamped to
`max 0 (len - 1)` exactly when it equals or exceeds the new length `len`, and is
untouched otherwise. An out-of-range index yields `indexOutOfRange` with the
room unchanged. -/
theorem remove_song_cmd_spec (room : MusicRoom) (index : Int) :
    ((0 ≤ index ∧ index < (room.playlist.length : Int)) →
      ∃ s, room.playlist[index.toNat]? = some s ∧
        (remove_song_cmd room index).2 = RemoveOutcome.removed s ∧
        (remove_song_cmd room index).1.playlist = room.playlist.eraseIdx index.toNat ∧
        (remove_song_cmd room index).1.is_playing = room.is_playing ∧
        (((room.playlist.eraseIdx index.toNat).length : Int) ≤ room.current_index →
          (remove_song_cmd room index).1.current_index =
            max 0 (((room.playlist.eraseIdx index.toNat).length : Int) - 1)) ∧
        (room.current_index < ((room.playlist.eraseIdx index.toNat).length : Int) →
          (remove_song_cmd room index).1.current_index = room.current_index)) ∧
    (¬ (0 ≤ index ∧ index < (room.playlist.length : Int)) →
      remove_song_cmd room index = (room, RemoveOutcome.indexOutOfRange)) := by
  constructor
  · rintro ⟨h0, h1⟩
    have hlt : index.toNat < room.playlist.length := by omega
    rw [remove_song_cmd_in_range room index h0 h1 hlt]
    refine ⟨room.playlist[index.toNat], List.getElem?_eq_getElem hlt, ?_, ?_, ?_, ?_, ?_⟩
    · split <;> rfl
    · split <;> rfl
    · split <;> rfl
    · intro hc
      rw [if_pos hc]
    · intro hc
      rw [if_neg (by omega)]
  · intro h
    unfold remove_song_cmd
    rw [remove_song_out_of_range room index h]

/-- Witness for C4: the spec's scenario — three songs, cursor on the last
(index 2), removing index 2 clamps the cursor to 1 and keeps the playing flag. -/
theorem remove_song_cmd_spec_witness :
    (0 ≤ (2 : Int) ∧ (2 : Int) < (roomNoCur3.playlist.length : Int)) ∧
    (remove_song_cmd { roomNoCur3 with current_index := 2 } 2).1.current_index = 1 ∧
    (remove_song_cmd { roomNoCur3 with current_index := 2 } 2).2 =
      RemoveOutcome.removed songC ∧
    (remove_song_cmd { roomNoCur3 with current_index := 2 } 2).1.is_playing = false := by
  refine ⟨by decide, ?_⟩
  obtain ⟨s, hs, hout, hpl, hplay, hclamp, -⟩ :=
    (remove_song_cmd_spec { roomNoCur3 with current_index := 2 } 2).1 (by decide)
  have hsc : s = songC := Option.some.inj (by rw [← hs]; decide)
  refine ⟨?_, ?_, ?_⟩
  · rw [hclamp (by decide)]
    decide
  · rw [hout, hsc]
  · rw [hplay]
    decide

/-! ### C10 -/

/-- C10: removing at an index strictly below the cursor while the cursor is not
on the last song leaves the cursor integer unchanged, so the song found at the
cursor afterwards is the one that previously followed it. -/
theorem remove_below_cursor_frame (room : MusicRoom) (j : Int)
    (h0 : 0 ≤ j) (h1 : j < room.current_index)
    (h2 : room.current_index < (room.playlist.length : Int) - 1) :
    (remove_song_cmd room j).1.current_index = room.current_index ∧
    (remove_song_cmd room j).1.playlist[room.current_index.toNat]? =
      room.playlist[room.current_index.toNat + 1]? ∧
    ∃ s, (remove_song_cmd room j).2 = RemoveOutcome.removed s := by
  have hj : j < (room.playlist.length : Int) := by omega
  have hlt : j.toNat < room.playlist.length := by omega
  have hlen : ((room.playlist.eraseIdx j.toNat).length : Int) =
      (room.playlist.length : Int) - 1 := by
    rw [List.length_eraseIdx_of_lt hlt]
    omega
  have hnoclamp :
      ¬ ((room.playlist.eraseIdx j.toNat).length : Int) ≤ room.current_index := by
    omega
  rw [remove_song_cmd_in_range room j h0 hj hlt, if_neg hnoclamp]
  refine ⟨rfl, ?_, ⟨_, rfl⟩⟩
  exact List.getElem?_eraseIdx_of_ge room.playlist j.toNat room.current_index.toNat
    (by omega)

/-- Witness for C10: removing index 0 with the cursor at 1 in a three-song room
keeps the cursor at 1, which now denotes the song previously at index 2. -/
theorem remove_below_cursor_frame_witness :
    (0 ≤ (0 : Int) ∧
      (0 : Int) < ({ roomNoCur3 with current_index := 1 } : MusicRoom).current_index ∧
      ({ roomNoCur3 with current_index := 1 } : MusicRoom).current_index <
        (roomNoCur3.playlist.length : Int) - 1) ∧
    (remove_song_cmd { roomNoCur3 with current_index := 1 } 0).1.current_index = 1 ∧
    (remove_song_cmd { roomNoCur3 with current_index := 1 } 0).1.playlist[(1 : Int).toNat]? =
      some songC := by
  refine ⟨by decide, ?_⟩
  obtain ⟨hcur, hget, -⟩ :=
    remove_below_cursor_frame { roomNoCur3 with current_index := 1 } 0 (by decide)
      (by decide) (by decide)
  refine ⟨hcur, ?_⟩
  rw [hget]
  decide

/-! ### C5 -/

lemma resolve_at_fst_cursor (room : MusicRoom) (i : Nat) (song : Song) (oracle : String) :
    (resolve_at room i song oracle).1.current_index = room.current_index := by
  unfold resolve_at
  split <;> rfl

lemma resolve_at_fst_playing (room : MusicRoom) (i : Nat) (song : Song) (oracle : String) :
    (resolve_at room i song oracle).1.is_playing = room.is_playing := by
  unfold resolve_at
  split <;> rfl

lemma resolve_at_fst_length (room : MusicRoom) (i : Nat) (song : Song) (oracle : String) :
    (resolve_at room i song oracle).1.playlist.length = room.playlist.length := by
  unfold resolve_at
  split
  · simp
  · rfl

lemma resolve_at_resolved (room : MusicRoom) (i : Nat) (song : Song) (oracle : String)
    (h : ¬ song.url = "") :
    resolve_at room i song oracle = (room, song.url, false) := by
  unfold resolve_at
  rw [if_neg h]

/-- The intermediate room built by the `/播放` handler once it decides to start:
playing flag set, cursor initialised to 0 when negative. -/
def play_start_room (room : MusicRoom) : MusicRoom :=
  { room with is_playing := true,
              current_index := if room.current_index < 0 then 0 else room.current_index }

lemma play_cmd_cases (room : MusicRoom) (oracle : String)
    (hne : room.playlist ≠ []) (hp : room.is_playing = false) :
    play_cmd room oracle =
      (match (play_start_room room).get_current_song with
       | some song =>
           ((resolve_at (play_start_room room)
               (play_start_room room).current_index.toNat song oracle).1,
             PlayOutcome.started
               (resolve_at (play_start_room room)
                 (play_start_room room).current_index.toNat song oracle).2.1
               (resolve_at (play_start_room room)
                 (play_start_room room).current_index.toNat song oracle).2.2)
       | none => (play_start_room room, PlayOutcome.noCurrentSong)) := by
  have hbool : room.playlist.isEmpty = false := List.isEmpty_eq_false.mpr hne
  unfold play_cmd
  rw [hbool, hp]
  rfl

/-- C5: `play` on an empty playlist rejects without touching the room; `play`
while already playing and `pause` while already paused are no-op statuses that
leave the room unchanged; `play` on a non-empty playlist with cursor `-1` sets
the cursor to 0 and the playing flag to true. -/
theorem play_pause_noop_spec (room : MusicRoom) (oracle : String) :
    (room.playlist = [] → play_cmd room oracle = (room, PlayOutcome.playlistEmpty)) ∧
    (room.playlist ≠ [] → room.is_playing = true →
      play_cmd room oracle = (room, PlayOutcome.alreadyPlaying)) ∧
    (room.playlist ≠ [] → room.is_playing = false → room.current_index = -1 →
      (play_cmd room oracle).1.current_index = 0 ∧
      (play_cmd room oracle).1.is_playing = true) ∧
    (room.is_playing = false → pause_cmd room = (room, PauseOutcome.alreadyPaused)) ∧
    (room.is_playing = true →
      pause_cmd room = ({ room with is_playing := false }, PauseOutcome.paused)) := by
  refine ⟨?_, ?_, ?_, ?_, ?_⟩
  · intro h
    unfold play_cmd
    rw [h]
    rfl
  · intro hne hp
    have hbool : room.playlist.isEmpty = false := List.isEmpty_eq_false.mpr hne
    unfold play_cmd
    rw [hbool, hp]
    rfl
  · intro hne hp hc
    have hcur : (play_start_room room).current_index = 0 := by
      unfold play_start_room
      simp [hc]
    rw [play_cmd_cases room oracle hne hp]
    cases hg : (play_start_room room).get_current_song with
    | none => exact ⟨hcur, rfl⟩
    | some song =>
        rw [resolve_at_fst_cursor, resolve_at_fst_playing]
        exact ⟨hcur, rfl⟩
  · intro hp
    unfold pause_cmd
    rw [hp]
    rfl
  · intro hp
    unfold pause_cmd
    rw [hp]
    rfl

/-- Witness for C5 on concrete rooms: empty-playlist play rejects, cursor `-1`
play starts at index 0, and double pause is a no-op. -/
theorem play_pause_noop_spec_witness :
    (clear_cmd roomSeq2).playlist = [] ∧
    play_cmd (clear_cmd roomSeq2) "u" = (clear_cmd roomSeq2, PlayOutcome.playlistEmpty) ∧
    (roomNoCur3.playlist ≠ [] ∧ roomNoCur3.is_playing = false ∧
      roomNoCur3.current_index = -1) ∧
    (play_cmd roomNoCur3 "u").1.current_index = 0 ∧
    (play_cmd roomNoCur3 "u").1.is_playing = true ∧
    pause_cmd roomNoCur3 = (roomNoCur3, PauseOutcome.alreadyPaused) :=
  ⟨by decide,
   (play_pause_noop_spec (clear_cmd roomSeq2) "u").1 (by decide),
   ⟨by decide, by decide, by decide⟩,
   ((play_pause_noop_spec roomNoCur3 "u").2.2.1 (by decide) (by decide) (by decide)).1,
   ((play_pause_noop_spec roomNoCur3 "u").2.2.1 (by decide) (by decide) (by decide)).2,
   (play_pause_noop_spec roomNoCur3 "u").2.2.2.1 (by decide)⟩

/-! ### C1: per-operation characterizations -/

lemma next_song_eq_pair (room : MusicRoom) (rand : Nat) (hne : room.playlist ≠ []) :
    room.next_song rand =
      ((room.next_song rand).1, ((room.next_song rand).1).get_current_song) := by
  have hbool : room.playlist.isEmpty = false := List.isEmpty_eq_false.mpr hne
  unfold MusicRoom.next_song
  rw [hbool]
  rfl

lemma prev_song_eq_pair (room : MusicRoom) (hne : room.playlist ≠ []) :
    room.prev_song = ((room.prev_song).1, ((room.prev_song).1).get_current_song) := by
  have hbool : room.playlist.isEmpty = false := List.isEmpty_eq_false.mpr hne
  unfold MusicRoom.prev_song
  rw [hbool]
  rfl

lemma next_cmd_empty (room : MusicRoom) (rand : Nat) (oracle : String)
    (h : room.playlist = []) : next_cmd room rand oracle = (room, NavOutcome.playlistEmpty) := by
  unfold next_cmd
  rw [h]
  rfl

lemma prev_cmd_empty (room : MusicRoom) (oracle : String)
    (h : room.playlist = []) : prev_cmd room oracle = (room, NavOutcome.playlistEmpty) := by
  unfold prev_cmd
  rw [h]
  rfl

lemma play_cmd_empty (room : MusicRoom) (oracle : String)
    (h : room.playlist = []) : play_cmd room oracle = (room, PlayOutcome.playlistEmpty) := by
  unfold play_cmd
  rw [h]
  rfl

lemma play_cmd_already (room : MusicRoom) (oracle : String)
    (hne : room.playlist ≠ []) (hp : room.is_playing = true) :
    play_cmd room oracle = (room, PlayOutcome.alreadyPlaying) := by
  have hbool : room.playlist.isEmpty = false := List.isEmpty_eq_false.mpr hne
  unfold play_cmd
  rw [hbool, hp]
  rfl

lemma next_cmd_fst (room : MusicRoom) (rand : Nat) (oracle : String)
    (hne : room.playlist ≠ []) :
    (next_cmd room rand oracle).1 =
      (match ((room.next_song rand).1).get_current_song with
       | some song =>
           (resolve_at (room.next_song rand).1
             ((room.next_song rand).1).current_index.toNat song oracle).1
       | none => (room.next_song rand).1) := by
  have hbool : room.playlist.isEmpty = false := List.isEmpty_eq_false.mpr hne
  unfold next_cmd
  rw [hbool, next_song_eq_pair room rand hne]
  cases ((room.next_song rand).1).get_current_song <;> rfl

lemma prev_cmd_fst (room : MusicRoom) (oracle : String) (hne : room.playlist ≠ []) :
    (prev_cmd room oracle).1 =
      (match ((room.prev_song).1).get_current_song with
       | some song =>
           (resolve_at (room.prev_song).1
             ((room.prev_song).1).current_index.toNat song oracle).1
       | none => (room.prev_song).1) := by
  have hbool : room.playlist.isEmpty = false := List.isEmpty_eq_false.mpr hne
  unfold prev_cmd
  rw [hbool, prev_song_eq_pair room hne]
  cases ((room.prev_song).1).get_current_song <;> rfl

lemma skip_cmd_none (room : MusicRoom) (oracle : String) :
    skip_cmd room none oracle = (room, SkipOutcome.badNumber) := rfl

lemma skip_cmd_out_of_range (room : MusicRoom) (n : Nat) (oracle : String)
    (hin : (n : Int) - 1 < 0 ∨ (room.playlist.length : Int) ≤ (n : Int) - 1) :
    skip_cmd room (some n) oracle = (room, SkipOutcome.indexOutOfRange) := by
  simp only [skip_cmd]
  rw [if_pos hin]

lemma skip_cmd_fst_in_range (room : MusicRoom) (n : Nat) (oracle : String)
    (hin : ¬ ((n : Int) - 1 < 0 ∨ (room.playlist.length : Int) ≤ (n : Int) - 1)) :
    (skip_cmd room (some n) oracle).1 =
      (match ({ room with current_index := (n : Int) - 1 } : MusicRoom).get_current_song with
       | some song =>
           (resolve_at { room with current_index := (n : Int) - 1 }
             ((n : Int) - 1).toNat song oracle).1
       | none => ({ room with current_index := (n : Int) - 1 } : MusicRoom)) := by
  simp only [skip_cmd]
  rw [if_neg hin]
  cases ({ room with current_index := (n : Int) - 1 } : MusicRoom).get_current_song <;> rfl

lemma play_cmd_fst (room : MusicRoom) (oracle : String)
    (hne : room.playlist ≠ []) (hp : room.is_playing = false) :
    (play_cmd room oracle).1 =
      (match (play_start_room room).get_current_song with
       | some song =>
           (resolve_at (play_start_room room)
             (play_start_room room).current_index.toNat song oracle).1
       | none => play_start_room room) := by
  rw [play_cmd_cases room oracle hne hp]
  cases (play_start_room room).get_current_song <;> rfl

lemma next_song_cursor_rand (room : MusicRoom) (rand : Nat)
    (hmode : room.play_mode = "random") (hne : room.playlist ≠ []) :
    (room.next_song rand).1.current_index = ((rand % room.playlist.length : Nat) : Int) := by
  simp [MusicRoom.next_song, List.isEmpty_iff, hne, hmode]

/-- A one-song room with the cursor on that song. -/
def roomOne : MusicRoom :=
  { room_id := "room_g", owner_id := "u1", owner_name := "Ursula", group_id := "g",
    playlist := [songA], current_index := 0,
    members := [("u1", "Ursula")], is_playing := true, play_mode := "sequence" }

/-- Counterexample for C1 as stated: removing the only song of a one-song room
whose cursor is 0 leaves the cursor at 0 on an empty playlist — neither `-1` nor
a valid index. -/
theorem cursor_invariant_counterexample :
    cursorInv roomOne ∧
    (applyOp roomOne (RoomOp.removeSongOp 0)).playlist = [] ∧
    (applyOp roomOne (RoomOp.removeSongOp 0)).current_index = 0 ∧
    ¬ cursorInv (applyOp roomOne (RoomOp.removeSongOp 0)) := by
  refine ⟨by decide, by decide, by decide, by decide⟩

/-- C1 (amended): every operation preserves the cursor invariant, except that a
removal that empties the playlist while the cursor is non-negative leaves the
cursor at 0 on the empty playlist. -/
theorem cursor_invariant_amended (room : MusicRoom) (op : RoomOp)
    (hinv : cursorInv room) :
    cursorInv (applyOp room op) ∨
      ((applyOp room op).playlist = [] ∧ (applyOp room op).current_index = 0) := by
  cases op with
  | addSongOp s =>
      left
      unfold cursorInv at hinv ⊢
      simp only [applyOp, MusicRoom.add_song]
      simp only [List.length_append, List.length_cons, List.length_nil]
      push_cast
      omega
  | removeSongOp i =>
      simp only [applyOp]
      by_cases hin : 0 ≤ i ∧ i < (room.playlist.length : Int)
      · have hlt : i.toNat < room.playlist.length := by omega
        have hlen : (room.playlist.eraseIdx i.toNat).length = room.playlist.length - 1 :=
          List.length_eraseIdx_of_lt hlt
        rw [remove_song_cmd_in_range room i hin.1 hin.2 hlt]
        by_cases hcl : ((room.playlist.eraseIdx i.toNat).length : Int) ≤ room.current_index
        · rw [if_pos hcl]
          by_cases hz : (room.playlist.eraseIdx i.toNat).length = 0
          · right
            refine ⟨List.length_eq_zero.mp hz, ?_⟩
            show (max 0 (((room.playlist.eraseIdx i.toNat).length : Int) - 1)) = 0
            have hz' : ((room.playlist.eraseIdx i.toNat).length : Int) = 0 := by
              exact_mod_cast hz
            rw [hz']
            decide
          · left
            unfold cursorInv
            right
            show 0 ≤ (max 0 (((room.playlist.eraseIdx i.toNat).length : Int) - 1)) ∧
              (max 0 (((room.playlist.eraseIdx i.toNat).length : Int) - 1)) <
                ((room.playlist.eraseIdx i.toNat).length : Int)
            have hone : 1 ≤ ((room.playlist.eraseIdx i.toNat).length : Int) := by
              omega
            rw [max_eq_right (by omega)]
            omega
        · rw [if_neg hcl]
          left
          unfold cursorInv at hinv ⊢
          show room.current_index = -1 ∨ (0 ≤ room.current_index ∧
            room.current_index < ((room.playlist.eraseIdx i.toNat).length : Int))
          omega
      · have heq : remove_song_cmd room i = (room, RemoveOutcome.indexOutOfRange) := by
          unfold remove_song_cmd
          rw [remove_song_out_of_range room i hin]
        rw [heq]
        left
        exact hinv
  | advanceOp rand oracle =>
      simp only [applyOp]
      by_cases hne : room.playlist = []
      · rw [next_cmd_empty room rand oracle hne]
        left
        exact hinv
      · left
        rw [next_cmd_fst room rand oracle hne]
        have hpos : 0 < room.playlist.length := List.length_pos.mpr hne
        have hcur : 0 ≤ (room.next_song rand).1.current_index ∧
            (room.next_song rand).1.current_index < (room.playlist.length : Int) := by
          by_cases hmode : room.play_mode = "random"
          · rw [next_song_cursor_rand room rand hmode hne]
            constructor
            · exact_mod_cast Nat.zero_le _
            · exact_mod_cast Nat.mod_lt _ hpos
          · rw [next_song_cursor_seq room hmode hne rand]
            have hN : (0 : Int) < (room.playlist.length : Int) := by exact_mod_cast hpos
            exact ⟨Int.emod_nonneg _ (by omega), Int.emod_lt_of_pos _ hN⟩
        cases hg : ((room.next_song rand).1).get_current_song with
        | some song =>
            unfold cursorInv
            right
            rw [resolve_at_fst_cursor, resolve_at_fst_length, next_song_playlist]
            exact hcur
        | none =>
            unfold cursorInv
            right
            rw [next_song_playlist]
            exact hcur
  | retreatOp oracle =>
      simp only [applyOp]
      by_cases hne : room.playlist = []
      · rw [prev_cmd_empty room oracle hne]
        left
        exact hinv
      · left
        rw [prev_cmd_fst room oracle hne]
        have hpos : 0 < room.playlist.length := List.length_pos.mpr hne
        have hN : (0 : Int) < (room.playlist.length : Int) := by exact_mod_cast hpos
        have hcur : 0 ≤ (room.prev_song).1.current_index ∧
            (room.prev_song).1.current_index < (room.playlist.length : Int) := by
          rw [prev_song_cursor room hne]
          exact ⟨Int.emod_nonneg _ (by omega), Int.emod_lt_of_pos _ hN⟩
        cases hg : ((room.prev_song).1).get_current_song with
        | some song =>
            unfold cursorInv
            right
            rw [resolve_at_fst_cursor, resolve_at_fst_length, prev_song_playlist]
            exact hcur
        | none =>
            unfold cursorInv
            right
            rw [prev_song_playlist]
            exact hcur
  | skipToOp numInput oracle =>
      cases numInput with
      | none =>
          left
          exact hinv
      | some n =>
          simp only [applyOp]
          by_cases hin : ((n : Int) - 1 < 0 ∨ (room.playlist.length : Int) ≤ (n : Int) - 1)
          · rw [skip_cmd_out_of_range room n oracle hin]
            left
            exact hinv
          · left
            rw [skip_cmd_fst_in_range room n oracle hin]
            push_neg at hin
            cases hg : ({ room with current_index := (n : Int) - 1 } :
                MusicRoom).get_current_song with
            | some song =>
                unfold cursorInv
                right
                rw [resolve_at_fst_cursor, resolve_at_fst_length]
                exact ⟨hin.1, hin.2⟩
            | none =>
                unfold cursorInv
                right
                exact ⟨hin.1, hin.2⟩
  | clearOp =>
      left
      unfold cursorInv
      exact Or.inl rfl
  | playOp oracle =>
      simp only [applyOp]
      by_cases hne : room.playlist = []
      · rw [play_cmd_empty room oracle hne]
        left
        exact hinv
      · by_cases hp : room.is_playing = true
        · rw [play_cmd_already room oracle hne hp]
          left
          exact hinv
        · have hp' : room.is_playing = false := by
            revert hp
            cases room.is_playing <;> simp
          left
          rw [play_cmd_fst room oracle hne hp']
          have hpos : 0 < room.playlist.length := List.length_pos.mpr hne
          have hcur : 0 ≤ (play_start_room room).current_index ∧
              (play_start_room room).current_index < (room.playlist.length : Int) := by
            unfold cursorInv at hinv
            show 0 ≤ (if room.current_index < 0 then 0 else room.current_index) ∧
              (if room.current_index < 0 then 0 else room.current_index) <
                (room.playlist.length : Int)
            split <;> omega
          cases hg : (play_start_room room).get_current_song with
          | some song =>
              unfold cursorInv
              right
              rw [resolve_at_fst_cursor, resolve_at_fst_length]
              exact hcur
          | none =>
              unfold cursorInv
              right
              exact hcur

/-- Witness for the amended C1: clearing a concrete two-song room preserves the
invariant. -/
theorem cursor_invariant_amended_witness :
    cursorInv roomSeq2 ∧
    (cursorInv (applyOp roomSeq2 RoomOp.clearOp) ∨
      ((applyOp roomSeq2 RoomOp.clearOp).playlist = [] ∧
        (applyOp roomSeq2 RoomOp.clearOp).current_index = 0)) :=
  ⟨by decide, cursor_invariant_amended roomSeq2 RoomOp.clearOp (by decide)⟩

/-! ### C6 -/

lemma StrMap.insert_self {β : Type} (m : StrMap β) (k : String) (v : β) :
    m.insert k v k = some v := by
  unfold StrMap.insert
  rw [if_pos rfl]

lemma StrMap.insert_other {β : Type} (m : StrMap β) (k k' : String) (v : β)
    (h : k' ≠ k) : m.insert k v k' = m k' := by
  unfold StrMap.insert
  rw [if_neg h]

lemma StrMap.erase_self {β : Type} (m : StrMap β) (k : String) :
    m.erase k k = none := by
  unfold StrMap.erase
  rw [if_pos rfl]

/-- C6: creating a room fails with `alreadyExists` (registry untouched) whenever
any room is active for the group scope, regardless of caller; on success exactly
the group-scope key maps to the new room, whose owner and sole member is the
caller. -/
theorem create_room_unique (reg : Registry) (user_id user_name group_id : String) :
    ((∃ r, reg.rooms (group_key group_id) = some r) →
      ∀ uid uname, create_room reg uid uname group_id = (reg, CreateOutcome.alreadyExists)) ∧
    (reg.rooms (group_key group_id) = none →
      (create_room reg user_id user_name group_id).2 = CreateOutcome.created ∧
      (∃ room, (create_room reg user_id user_name group_id).1.rooms (group_key group_id) =
          some room ∧
        room.owner_id = user_id ∧ room.owner_name = user_name ∧
        room.members = [(user_id, user_name)] ∧ room.playlist = []) ∧
      ∀ k, k ≠ group_key group_id →
        (create_room reg user_id user_name group_id).1.rooms k = reg.rooms k) := by
  constructor
  · rintro ⟨r, hr⟩ uid uname
    simp only [create_room]
    rw [hr]
  · intro hnone
    simp only [create_room]
    rw [hnone]
    refine ⟨rfl, ⟨_, StrMap.insert_self _ _ _, rfl, rfl, rfl, rfl⟩, ?_⟩
    intro k hk
    exact StrMap.insert_other _ _ _ _ hk

/-- The empty registry (plugin state right after startup). -/
def regEmpty : Registry :=
  { rooms := StrMap.empty, user_room_map := StrMap.empty, search_results := StrMap.empty }

/-- Witness for C6: creating a room in the empty registry succeeds, and a second
creation for the same group scope (by a different caller) is refused. -/
theorem create_room_unique_witness :
    (create_room regEmpty "u1" "Ursula" "g").2 = CreateOutcome.created ∧
    (create_room (create_room regEmpty "u1" "Ursula" "g").1 "u2" "Vera" "g").2 =
      CreateOutcome.alreadyExists := by
  have h1 := (create_room_unique regEmpty "u1" "Ursula" "g").2 rfl
  obtain ⟨hc, ⟨room, hroom, -, -, -, -⟩, -⟩ := h1
  refine ⟨hc, ?_⟩
  have h2 := (create_room_unique (create_room regEmpty "u1" "Ursula" "g").1
    "u2" "Vera" "g").1 ⟨room, hroom⟩ "u2" "Vera"
  rw [h2]

/-! ### C3 -/

/-- C3: with the caller in a room and a stashed search, a successful selection
deletes the stash, so an immediate second selection by the same caller reports
`noPendingSearch`; a failed selection (no number or an out-of-range index)
leaves the whole registry unchanged. -/
theorem select_song_consumes_stash (reg : Registry) (user_id group_id : String)
    (numInput : Option Nat) (oracle : String) (room : MusicRoom)
    (hroom : reg.rooms (group_key group_id) = some room) :
    (∀ s, (select_song reg user_id group_id numInput oracle).2 = SelectOutcome.added s →
      ((select_song reg user_id group_id numInput oracle).1.search_results
          (user_key user_id group_id) = none ∧
       ∀ numInput2 oracle2,
         (select_song (select_song reg user_id group_id numInput oracle).1
            user_id group_id numInput2 oracle2).2 = SelectOutcome.noPendingSearch)) ∧
    (((select_song reg user_id group_id numInput oracle).2 = SelectOutcome.badNumber ∨
      (select_song reg user_id group_id numInput oracle).2 = SelectOutcome.indexOutOfRange) →
      (select_song reg user_id group_id numInput oracle).1 = reg) := by
  cases hstash : reg.search_results (user_key user_id group_id) with
  | none =>
      have hred : select_song reg user_id group_id numInput oracle =
          (reg, SelectOutcome.noPendingSearch) := by
        simp only [select_song, hroom, hstash]
      rw [hred]
      exact ⟨fun s hs => absurd hs (by simp), fun _ => rfl⟩
  | some songs =>
      cases numInput with
      | none =>
          have hred : select_song reg user_id group_id none oracle =
              (reg, SelectOutcome.badNumber) := by
            simp only [select_song, hroom, hstash]
          rw [hred]
          exact ⟨fun s hs => absurd hs (by simp), fun _ => rfl⟩
      | some n =>
          by_cases hin : ((n : Int) - 1 < 0 ∨ (songs.length : Int) ≤ (n : Int) - 1)
          · have hred : select_song reg user_id group_id (some n) oracle =
                (reg, SelectOutcome.indexOutOfRange) := by
              simp only [select_song, hroom, hstash, if_pos hin]
            rw [hred]
            exact ⟨fun s hs => absurd hs (by simp), fun _ => rfl⟩
          · cases hget : songs[((n : Int) - 1).toNat]? with
            | none =>
                have hred : select_song reg user_id group_id (some n) oracle =
                    (reg, SelectOutcome.indexOutOfRange) := by
                  simp only [select_song, hroom, hstash, if_neg hin, hget]
                rw [hred]
                exact ⟨fun s hs => absurd hs (by simp), fun _ => rfl⟩
            | some song =>
                have hred : select_song reg user_id group_id (some n) oracle =
                    ({ reg with
                        rooms := reg.rooms.insert (group_key group_id)
                          (room.add_song { song with url := oracle })
                        search_results :=
                          reg.search_results.erase (user_key user_id group_id) },
                      SelectOutcome.added { song with url := oracle }) := by
                  simp only [select_song, hroom, hstash, if_neg hin, hget]
                rw [hred]
                constructor
                · intro s hs
                  refine ⟨StrMap.erase_self _ _, ?_⟩
                  intro numInput2 oracle2
                  simp only [select_song, StrMap.insert_self, StrMap.erase_self]
                · intro h
                  rcases h with h | h <;> exact absurd h (by simp)

/-- A registry with one room for scope `g` and a stashed two-song search for
caller `u1`. -/
def regDemo : Registry :=
  { rooms := StrMap.empty.insert (group_key "g") roomSeq2
    user_room_map := StrMap.empty.insert (user_key "u1" "g") (group_key "g")
    search_results := StrMap.empty.insert (user_key "u1" "g") [songA, songB] }

/-- Witness for C3: in the demo registry, selecting song 1 succeeds and deletes
the stash, and an immediate second selection reports `noPendingSearch`. -/
theorem select_song_consumes_stash_witness :
    regDemo.rooms (group_key "g") = some roomSeq2 ∧
    (select_song regDemo "u1" "g" (some 1) "u").2 =
      SelectOutcome.added { songA with url := "u" } ∧
    (select_song (select_song regDemo "u1" "g" (some 1) "u").1
       "u1" "g" (some 1) "u").2 = SelectOutcome.noPendingSearch := by
  refine ⟨by decide, by decide, ?_⟩
  exact ((select_song_consumes_stash regDemo "u1" "g" (some 1) "u" roomSeq2
    (by decide)).1 { songA with url := "u" } (by decide)).2 (some 1) "u"

/-! ### C7 -/

lemma get_current_song_mem (room : MusicRoom) (s : Song)
    (h : room.get_current_song = some s) : s ∈ room.playlist := by
  unfold MusicRoom.get_current_song at h
  split at h
  · exact List.getElem?_mem h
  · exact absurd h (by simp)

lemma next_cmd_snd (room : MusicRoom) (rand : Nat) (oracle : String)
    (hne : room.playlist ≠ []) :
    (next_cmd room rand oracle).2 =
      (match ((room.next_song rand).1).get_current_song with
       | some song =>
           NavOutcome.playing
             (resolve_at (room.next_song rand).1
               ((room.next_song rand).1).current_index.toNat song oracle).2.1
             (resolve_at (room.next_song rand).1
               ((room.next_song rand).1).current_index.toNat song oracle).2.2
       | none => NavOutcome.silent) := by
  have hbool : room.playlist.isEmpty = false := List.isEmpty_eq_false.mpr hne
  unfold next_cmd
  rw [hbool, next_song_eq_pair room rand hne]
  cases ((room.next_song rand).1).get_current_song <;> rfl

lemma prev_cmd_snd (room : MusicRoom) (oracle : String) (hne : room.playlist ≠ []) :
    (prev_cmd room oracle).2 =
      (match ((room.prev_song).1).get_current_song with
       | some song =>
           NavOutcome.playing
             (resolve_at (room.prev_song).1
               ((room.prev_song).1).current_index.toNat song oracle).2.1
             (resolve_at (room.prev_song).1
               ((room.prev_song).1).current_index.toNat song oracle).2.2
       | none => NavOutcome.silent) := by
  have hbool : room.playlist.isEmpty = false := List.isEmpty_eq_false.mpr hne
  unfold prev_cmd
  rw [hbool, prev_song_eq_pair room hne]
  cases ((room.prev_song).1).get_current_song <;> rfl

lemma skip_cmd_snd_in_range (room : MusicRoom) (n : Nat) (oracle : String)
    (hin : ¬ ((n : Int) - 1 < 0 ∨ (room.playlist.length : Int) ≤ (n : Int) - 1)) :
    (skip_cmd room (some n) oracle).2 =
      (match ({ room with current_index := (n : Int) - 1 } : MusicRoom).get_current_song with
       | some song =>
           SkipOutcome.switched
             (resolve_at { room with current_index := (n : Int) - 1 }
               ((n : Int) - 1).toNat song oracle).2.1
             (resolve_at { room with current_index := (n : Int) - 1 }
               ((n : Int) - 1).toNat song oracle).2.2
       | none => SkipOutcome.silent) := by
  simp only [skip_cmd]
  rw [if_neg hin]
  cases ({ room with current_index := (n : Int) - 1 } : MusicRoom).get_current_song <;> rfl

/-- C7: when every song in the playlist already has a non-empty URL, none of
`play`, `next`, `previous` or `skip-to` issues a network call, each leaves the
playlist (hence every stored URL) unchanged, and the URL each reports is the
stored URL of the resulting current song. -/
theorem url_resolution_cached (room : MusicRoom) (oracle : String) (rand : Nat)
    (numInput : Option Nat) (hres : ∀ s ∈ room.playlist, ¬ s.url = "") :
    ((play_cmd room oracle).1.playlist = room.playlist ∧
      ∀ u c, (play_cmd room oracle).2 = PlayOutcome.started u c →
        c = false ∧ ∃ s, (play_cmd room oracle).1.get_current_song = some s ∧ u = s.url) ∧
    ((next_cmd room rand oracle).1.playlist = room.playlist ∧
      ∀ u c, (next_cmd room rand oracle).2 = NavOutcome.playing u c →
        c = false ∧ ∃ s, (next_cmd room rand oracle).1.get_current_song = some s ∧
          u = s.url) ∧
    ((prev_cmd room oracle).1.playlist = room.playlist ∧
      ∀ u c, (prev_cmd room oracle).2 = NavOutcome.playing u c →
        c = false ∧ ∃ s, (prev_cmd room oracle).1.get_current_song = some s ∧
          u = s.url) ∧
    ((skip_cmd room numInput oracle).1.playlist = room.playlist ∧
      ∀ u c, (skip_cmd room numInput oracle).2 = SkipOutcome.switched u c →
        c = false ∧ ∃ s, (skip_cmd room numInput oracle).1.get_current_song = some s ∧
          u = s.url) := by
  refine ⟨?_, ?_, ?_, ?_⟩
  · by_cases hne : room.playlist = []
    · rw [play_cmd_empty room oracle hne]
      exact ⟨rfl, fun u c h => absurd h (by simp)⟩
    · by_cases hp : room.is_playing = true
      · rw [play_cmd_already room oracle hne hp]
        exact ⟨rfl, fun u c h => absurd h (by simp)⟩
      · have hp' : room.is_playing = false := by
          revert hp
          cases room.is_playing <;> simp
        rw [play_cmd_cases room oracle hne hp']
        cases hg : (play_start_room room).get_current_song with
        | none => exact ⟨rfl, fun u c h => absurd h (by simp)⟩
        | some song =>
            simp only []
            have hmem0 : song ∈ (play_start_room room).playlist :=
              get_current_song_mem _ _ hg
            have hmem : song ∈ room.playlist := hmem0
            rw [resolve_at_resolved _ _ _ _ (hres song hmem)]
            refine ⟨rfl, ?_⟩
            intro u c h
            injection h with h1 h2
            exact ⟨h2.symm, song, hg, h1.symm⟩
  · by_cases hne : room.playlist = []
    · rw [next_cmd_empty room rand oracle hne]
      exact ⟨rfl, fun u c h => absurd h (by simp)⟩
    · rw [next_cmd_fst room rand oracle hne, next_cmd_snd room rand oracle hne]
      cases hg : ((room.next_song rand).1).get_current_song with
      | none => exact ⟨next_song_playlist room rand, fun u c h => absurd h (by simp)⟩
      | some song =>
          simp only []
          have hmem : song ∈ room.playlist := by
            have hm := get_current_song_mem _ _ hg
            rwa [next_song_playlist] at hm
          rw [resolve_at_resolved _ _ _ _ (hres song hmem)]
          refine ⟨next_song_playlist room rand, ?_⟩
          intro u c h
          injection h with h1 h2
          exact ⟨h2.symm, song, hg, h1.symm⟩
  · by_cases hne : room.playlist = []
    · rw [prev_cmd_empty room oracle hne]
      exact ⟨rfl, fun u c h => absurd h (by simp)⟩
    · rw [prev_cmd_fst room oracle hne, prev_cmd_snd room oracle hne]
      cases hg : ((room.prev_song).1).get_current_song with
      | none => exact ⟨prev_song_playlist room, fun u c h => absurd h (by simp)⟩
      | some song =>
          simp only []
          have hmem : song ∈ room.playlist := by
            have hm := get_current_song_mem _ _ hg
            rwa [prev_song_playlist] at hm
          rw [resolve_at_resolved _ _ _ _ (hres song hmem)]
          refine ⟨prev_song_playlist room, ?_⟩
          intro u c h
          injection h with h1 h2
          exact ⟨h2.symm, song, hg, h1.symm⟩
  · cases numInput with
    | none => exact ⟨rfl, fun u c h => absurd h (by simp [skip_cmd_none])⟩
    | some n =>
        by_cases hin : ((n : Int) - 1 < 0 ∨ (room.playlist.length : Int) ≤ (n : Int) - 1)
        · rw [skip_cmd_out_of_range room n oracle hin]
          exact ⟨rfl, fun u c h => absurd h (by simp)⟩
        · rw [skip_cmd_fst_in_range room n oracle hin, skip_cmd_snd_in_range room n oracle hin]
          cases hg : ({ room with current_index := (n : Int) - 1 } :
              MusicRoom).get_current_song with
          | none => exact ⟨rfl, fun u c h => absurd h (by simp)⟩
          | some song =>
              simp only []
              have hmem0 : song ∈
                  ({ room with current_index := (n : Int) - 1 } : MusicRoom).playlist :=
                get_current_song_mem _ _ hg
              have hmem : song ∈ room.playlist := hmem0
              rw [resolve_at_resolved _ _ _ _ (hres song hmem)]
              refine ⟨rfl, ?_⟩
              intro u c h
              injection h with h1 h2
              exact ⟨h2.symm, song, hg, h1.symm⟩

/-- A two-song room whose songs both already carry resolved URLs. -/
def roomResolved : MusicRoom :=
  { room_id := "room_g", owner_id := "u1", owner_name := "Ursula", group_id := "g",
    playlist := [songB, songC], current_index := 0,
    members := [("u1", "Ursula")], is_playing := false, play_mode := "sequence" }

/-- Witness for C7: advancing in a fully resolved two-song room issues no network
call and reports the stored URL of the new current song. -/
theorem url_resolution_cached_witness :
    (∀ s ∈ roomResolved.playlist, ¬ s.url = "") ∧
    ((next_cmd roomResolved 0 "other").1.playlist = roomResolved.playlist ∧
      ∀ u c, (next_cmd roomResolved 0 "other").2 = NavOutcome.playing u c →
        c = false ∧ ∃ s, (next_cmd roomResolved 0 "other").1.get_current_song = some s ∧
          u = s.url) :=
  ⟨by decide,
    (url_resolution_cached roomResolved "other" 0 (some 1) (by decide)).2.1⟩
